import Mathlib

set_option linter.unusedVariables false
set_option maxRecDepth 100000

/-!
Verification of the GeoPackage binary-geometry decoder of
`src/gpkg/gpkg.c` (SQLiteExtensions).  The byte-level functions below are a
shallow embedding of the C source: a blob is a byte list, the cursor is an
explicit integer threaded through every reader, 4-byte integers are read as
32-bit patterns (with the signed interpretation applied exactly where the C
code compares an `int`), and 8-byte doubles are kept as 64-bit patterns whose
IEEE-754 ordering and NaN test are defined explicitly.  The host endianness is
an explicit parameter, mirroring the `endian()` branch in `getInt` and
`getDouble`.
-/

namespace GPKG

/-- Byte blobs.  Values outside the list read as 0: the C primitives perform
no bounds check of their own, so a read always produces some value. -/
abbrev Blob := List Nat

/-- Byte access `p_blob[i]`. -/
def bAt (blob : Blob) (i : Int) : Nat := blob.getD i.toNat 0

/-- Twos-complement interpretation of a 32-bit pattern as a C `int`. -/
def toInt32 (p : Nat) : Int := if p < 2 ^ 31 then (p : Int) else (p : Int) - 2 ^ 32

/-- Assemble four bytes into a 32-bit pattern; `little` says whether the
first byte is least significant. -/
def interp4 (little : Bool) (b0 b1 b2 b3 : Nat) : Nat :=
  if little then b0 + 2 ^ 8 * b1 + 2 ^ 16 * b2 + 2 ^ 24 * b3
  else b3 + 2 ^ 8 * b2 + 2 ^ 16 * b1 + 2 ^ 24 * b0

/-- Assemble eight bytes into a 64-bit pattern. -/
def interp8 (little : Bool) (b0 b1 b2 b3 b4 b5 b6 b7 : Nat) : Nat :=
  if little then
    b0 + 2 ^ 8 * b1 + 2 ^ 16 * b2 + 2 ^ 24 * b3 + 2 ^ 32 * b4 + 2 ^ 40 * b5 +
      2 ^ 48 * b6 + 2 ^ 56 * b7
  else
    b7 + 2 ^ 8 * b6 + 2 ^ 16 * b5 + 2 ^ 24 * b4 + 2 ^ 32 * b3 + 2 ^ 40 * b2 +
      2 ^ 48 * b1 + 2 ^ 56 * b0

/-- Embedding of `getInt` (gpkg.c line 121): if the declared byte order matches the host,
the four bytes are reinterpreted in place (in host order); otherwise they are
reversed first.  Byte order 1 is little endian, 0 big endian. -/
def getIntPat (blob : Blob) (index : Int) (byteOrder host : Nat) : Nat :=
  if byteOrder = host then
    interp4 (host = 1) (bAt blob index) (bAt blob (index + 1))
      (bAt blob (index + 2)) (bAt blob (index + 3))
  else
    interp4 (host = 1) (bAt blob (index + 3)) (bAt blob (index + 2))
      (bAt blob (index + 1)) (bAt blob index)

/-- The reader `getInt` including the cursor advance `*index += 4`. -/
def getInt (blob : Blob) (index : Int) (byteOrder host : Nat) : Nat × Int :=
  (getIntPat blob index byteOrder host, index + 4)

/-- Embedding of `getDouble` (gpkg.c line 145), value part: the 64-bit pattern read. -/
def getDoublePat (blob : Blob) (index : Int) (byteOrder host : Nat) : Nat :=
  if byteOrder = host then
    interp8 (host = 1) (bAt blob index) (bAt blob (index + 1)) (bAt blob (index + 2))
      (bAt blob (index + 3)) (bAt blob (index + 4)) (bAt blob (index + 5))
      (bAt blob (index + 6)) (bAt blob (index + 7))
  else
    interp8 (host = 1) (bAt blob (index + 7)) (bAt blob (index + 6)) (bAt blob (index + 5))
      (bAt blob (index + 4)) (bAt blob (index + 3)) (bAt blob (index + 2))
      (bAt blob (index + 1)) (bAt blob index)

/-- The reader `getDouble` including the cursor advance `*index += 8`. -/
def getDouble (blob : Blob) (index : Int) (byteOrder host : Nat) : Nat × Int :=
  (getDoublePat blob index byteOrder host, index + 8)

/-- IEEE-754 NaN test on a 64-bit pattern (`isnan`). -/
def isNanPat (p : Nat) : Bool :=
  decide ((p >>> 52) % 2048 = 2047) && decide (p % 2 ^ 52 ≠ 0)

/-- The value domain of non-NaN doubles: finite values are kept as the
exact integer `value * 2^1075` (every finite double is `m * 2^(e-1075)` with
integers m, e ≥ 0, so this scaling is exact, order-preserving, and maps the
two IEEE zeros to the same 0). -/
inductive XR where
  | negInf : XR
  | fin : ℤ → XR
  | posInf : XR
deriving DecidableEq

/-- Strict order on the double value domain. -/
def xrLt : XR → XR → Bool
  | XR.negInf, XR.negInf => false
  | XR.negInf, _ => true
  | XR.fin _, XR.negInf => false
  | XR.fin a, XR.fin b => decide (a < b)
  | XR.fin _, XR.posInf => true
  | XR.posInf, _ => false

/-- Value of a non-NaN 64-bit IEEE-754 pattern (scaled by 2^1075). -/
def dblVal (p : Nat) : XR :=
  let sign : Nat := (p >>> 63) % 2
  let exp : Nat := (p >>> 52) % 2048
  let man : Nat := p % 2 ^ 52
  if exp = 2047 then (if sign = 1 then XR.negInf else XR.posInf)
  else
    let m : ℤ := (if sign = 1 then -1 else 1) * ((man : ℤ) + if exp = 0 then 0 else 2 ^ 52)
    XR.fin (m * ((2 ^ max exp 1 : Nat) : ℤ))

/-- The C `<` on doubles: false whenever either side is NaN. -/
def dblLt (a b : Nat) : Bool :=
  !isNanPat a && !isNanPat b && xrLt (dblVal a) (dblVal b)

/-- The min/max folding step repeated throughout the envelope readers:
keep the running extreme unless the new value is strictly smaller (MIN, i.e.
maxmin = 0) or strictly larger (MAX). -/
def foldMinMax (maxmin : Int) (res res2 : Nat) : Nat :=
  if maxmin = 0 then (if dblLt res2 res then res2 else res)
  else (if dblLt res res2 then res2 else res)

/-- Geometry kind codes (gpkg.c lines 52-59). -/
def wkbGeometry : Nat := 0

def wkbPoint : Nat := 1

def wkbLineString : Nat := 2

def wkbPolygon : Nat := 3

def wkbMultiPoint : Nat := 4

def wkbMultiLineString : Nat := 5

def wkbMultiPolygon : Nat := 6

def wkbGeometryCollection : Nat := 7

/-- Embedding of `readWKBPointOrd` (gpkg.c line 177).  Returns (ok, new index, value
pattern); on the bounds failure the cursor is untouched and the out
parameter is never written (modelled as 0, unused by callers). -/
def readWKBPointOrd (blob : Blob) (n_bytes index : Int) (byteOrder host : Nat)
    (dimension ordinate : Int) : Bool × Int × Nat :=
  if index + dimension * 8 > n_bytes then (false, index, 0)
  else
    let index := index + ordinate * 8
    let (res, index) := getDouble blob index byteOrder host
    (true, index + (dimension - ordinate - 1) * 8, res)

/-- Loop body of `isEmptyWKBPoint`: scan the `dimension` ordinates, stopping
at the first non-NaN one; `i` is the loop counter of the C code. -/
def isEmptyWKBPointGo (blob : Blob) (byteOrder host : Nat) (dimension : Int) :
    Nat → Int → Int → Int × Int
  | 0, _, index => (1, index)
  | k + 1, i, index =>
    let (d, index) := getDouble blob index byteOrder host
    if isNanPat d then isEmptyWKBPointGo blob byteOrder host dimension k (i + 1) index
    else (0, index + (dimension - i - 1) * 8)

/-- Embedding of `isEmptyWKBPoint` (gpkg.c line 194): a point is empty iff every
ordinate is NaN.  Returns (1 empty / 0 not empty / -1 error, new index). -/
def isEmptyWKBPoint (blob : Blob) (n_bytes index : Int) (byteOrder host : Nat)
    (dimension : Int) : Int × Int :=
  if index + dimension * 8 > n_bytes then (-1, index)
  else isEmptyWKBPointGo blob byteOrder host dimension dimension.toNat 0 index

/-- The fold over remaining elements shared by every envelope reader
(gpkg.c lines 229-243 and the analogous loops): read an element with `rd`,
abort on failure, otherwise fold its value with `foldMinMax`. -/
def envFold (rd : Int → Bool × Int × Nat) (maxmin : Int) :
    Nat → Int → Nat → Bool × Int × Nat
  | 0, index, res => (true, index, res)
  | k + 1, index, res =>
    match rd index with
    | (false, i', _) => (false, i', 0)
    | (true, i', res2) => envFold rd maxmin k i' (foldMinMax maxmin res res2)

/-- Embedding of `readWKBLineStringEnv` (gpkg.c line 219). -/
def readWKBLineStringEnv (blob : Blob) (n_bytes index : Int) (byteOrder host : Nat)
    (dimension ordinate maxmin : Int) : Bool × Int × Nat :=
  let (c, index) := getInt blob index byteOrder host
  let numPoints := toInt32 c
  if numPoints < 1 then (false, index, 0)
  else if index + numPoints * dimension * 8 > n_bytes then (false, index, 0)
  else
    match readWKBPointOrd blob n_bytes index byteOrder host dimension ordinate with
    | (false, i', _) => (false, i', 0)
    | (true, i', res) =>
      envFold (fun ix => readWKBPointOrd blob n_bytes ix byteOrder host dimension ordinate)
        maxmin (numPoints.toNat - 1) i' res

/-- Embedding of `isEmptyWKBLineString` (gpkg.c line 255): empty iff the point count is
below 1. -/
def isEmptyWKBLineString (blob : Blob) (n_bytes index : Int) (byteOrder host : Nat)
    (dimension : Int) : Int × Int :=
  let (c, index) := getInt blob index byteOrder host
  let numPoints := toInt32 c
  if numPoints < 1 then (1, index)
  else if index + numPoints * dimension * 8 > n_bytes then (-1, index)
  else (0, index + numPoints * dimension * 8)

/-- Embedding of `skipWKBLineString` (gpkg.c line 273). -/
def skipWKBLineString (blob : Blob) (n_bytes index : Int) (byteOrder host : Nat)
    (dimension : Int) : Bool × Int :=
  let (c, index) := getInt blob index byteOrder host
  let numPoints := toInt32 c
  if numPoints < 1 then (false, index)
  else if index + numPoints * dimension * 8 > n_bytes then (false, index)
  else (true, index + numPoints * dimension * 8)

/-- The ring-skipping loop of `readWKBPolygonEnv` / `isEmptyWKBPolygon`. -/
def skipRings (blob : Blob) (n_bytes : Int) (byteOrder host : Nat) (dimension : Int) :
    Nat → Int → Bool × Int
  | 0, index => (true, index)
  | k + 1, index =>
    match skipWKBLineString blob n_bytes index byteOrder host dimension with
    | (false, i') => (false, i')
    | (true, i') => skipRings blob n_bytes byteOrder host dimension k i'

/-- Embedding of `readWKBPolygonEnv` (gpkg.c line 294): the first ring is read as a
LineString envelope; for X/Y the remaining rings are only skipped, for Z/M
their envelopes are folded in as well. -/
def readWKBPolygonEnv (blob : Blob) (n_bytes index : Int) (byteOrder host : Nat)
    (dimension ordinate maxmin : Int) : Bool × Int × Nat :=
  let (c, index) := getInt blob index byteOrder host
  let numRings := toInt32 c
  if numRings < 1 then (false, index, 0)
  else
    match readWKBLineStringEnv blob n_bytes index byteOrder host dimension ordinate maxmin with
    | (false, i', _) => (false, i', 0)
    | (true, i', res) =>
      if ordinate < 2 then
        match skipRings blob n_bytes byteOrder host dimension (numRings.toNat - 1) i' with
        | (false, i2) => (false, i2, 0)
        | (true, i2) => (true, i2, res)
      else
        envFold
          (fun ix => readWKBLineStringEnv blob n_bytes ix byteOrder host dimension ordinate maxmin)
          maxmin (numRings.toNat - 1) i' res

/-- Embedding of `isEmptyWKBPolygon` (gpkg.c line 340): a ring count below 1 is an error;
with exactly one ring the polygon is empty iff that ring is; with two or
more rings it is never empty but every ring is still traversed. -/
def isEmptyWKBPolygon (blob : Blob) (n_bytes index : Int) (byteOrder host : Nat)
    (dimension : Int) : Int × Int :=
  let (c, index) := getInt blob index byteOrder host
  let numRings := toInt32 c
  if numRings < 1 then (-1, index)
  else if numRings = 1 then isEmptyWKBLineString blob n_bytes index byteOrder host dimension
  else
    match skipRings blob n_bytes byteOrder host dimension numRings.toNat index with
    | (false, i') => (-1, i')
    | (true, i') => (0, i')

/-- The result-folding loop shared by the four `isEmptyWKBMulti*` readers
(gpkg.c lines 405-412 and analogous): a negative element result aborts at
once, a 0 marks the aggregate not-empty but the traversal continues. -/
def isEmptyFold (isE : Int → Int × Int) : Nat → Int → Int → Int × Int
  | 0, index, res => (res, index)
  | k + 1, index, res =>
    let (res2, i') := isE index
    if res2 < 0 then (res2, i')
    else isEmptyFold isE k i' (if res2 = 0 then 0 else res)

/-- Embedding of `readWKBMultiPointEnv` (gpkg.c line 365); `rdGeom` is the recursive
geometry envelope reader it calls with the expected kind `wkbPoint`. -/
def readWKBMultiPointEnv (rdGeom : Int → Nat → Bool × Int × Nat) (blob : Blob)
    (n_bytes index : Int) (byteOrder host : Nat) (dimension ordinate maxmin : Int) :
    Bool × Int × Nat :=
  let (c, index) := getInt blob index byteOrder host
  let numGeoms := toInt32 c
  if numGeoms < 1 then (false, index, 0)
  else
    match rdGeom index wkbPoint with
    | (false, i', _) => (false, i', 0)
    | (true, i', res) =>
      envFold (fun ix => rdGeom ix wkbPoint) maxmin (numGeoms.toNat - 1) i' res

/-- Embedding of `isEmptyWKBMultiPoint` (gpkg.c line 399). -/
def isEmptyWKBMultiPoint (isEmptyGeom : Int → Nat → Int × Int) (blob : Blob)
    (n_bytes index : Int) (byteOrder host : Nat) (dimension : Int) : Int × Int :=
  let (c, index) := getInt blob index byteOrder host
  let numGeoms := toInt32 c
  if numGeoms < 1 then (1, index)
  else isEmptyFold (fun ix => isEmptyGeom ix wkbPoint) numGeoms.toNat index 1

/-- Embedding of `readWKBMultiLineStringEnv` (gpkg.c line 426). -/
def readWKBMultiLineStringEnv (rdGeom : Int → Nat → Bool × Int × Nat) (blob : Blob)
    (n_bytes index : Int) (byteOrder host : Nat) (dimension ordinate maxmin : Int) :
    Bool × Int × Nat :=
  let (c, index) := getInt blob index byteOrder host
  let numGeoms := toInt32 c
  if numGeoms < 1 then (false, index, 0)
  else
    match rdGeom index wkbLineString with
    | (false, i', _) => (false, i', 0)
    | (true, i', res) =>
      envFold (fun ix => rdGeom ix wkbLineString) maxmin (numGeoms.toNat - 1) i' res

/-- Embedding of `isEmptyWKBMultiLineString` (gpkg.c line 460). -/
def isEmptyWKBMultiLineString (isEmptyGeom : Int → Nat → Int × Int) (blob : Blob)
    (n_bytes index : Int) (byteOrder host : Nat) (dimension : Int) : Int × Int :=
  let (c, index) := getInt blob index byteOrder host
  let numGeoms := toInt32 c
  if numGeoms < 1 then (1, index)
  else isEmptyFold (fun ix => isEmptyGeom ix wkbLineString) numGeoms.toNat index 1

/-- Embedding of `readWKBMultiPolygonEnv` (gpkg.c line 487). -/
def readWKBMultiPolygonEnv (rdGeom : Int → Nat → Bool × Int × Nat) (blob : Blob)
    (n_bytes index : Int) (byteOrder host : Nat) (dimension ordinate maxmin : Int) :
    Bool × Int × Nat :=
  let (c, index) := getInt blob index byteOrder host
  let numGeoms := toInt32 c
  if numGeoms < 1 then (false, index, 0)
  else
    match rdGeom index wkbPolygon with
    | (false, i', _) => (false, i', 0)
    | (true, i', res) =>
      envFold (fun ix => rdGeom ix wkbPolygon) maxmin (numGeoms.toNat - 1) i' res

/-- Embedding of `isEmptyWKBMultiPolygon` (gpkg.c line 521). -/
def isEmptyWKBMultiPolygon (isEmptyGeom : Int → Nat → Int × Int) (blob : Blob)
    (n_bytes index : Int) (byteOrder host : Nat) (dimension : Int) : Int × Int :=
  let (c, index) := getInt blob index byteOrder host
  let numGeoms := toInt32 c
  if numGeoms < 1 then (1, index)
  else isEmptyFold (fun ix => isEmptyGeom ix wkbPolygon) numGeoms.toNat index 1

/-- Embedding of `readWKBGeometryCollectionEnv` (gpkg.c line 548). -/
def readWKBGeometryCollectionEnv (rdGeom : Int → Nat → Bool × Int × Nat) (blob : Blob)
    (n_bytes index : Int) (byteOrder host : Nat) (dimension ordinate maxmin : Int) :
    Bool × Int × Nat :=
  let (c, index) := getInt blob index byteOrder host
  let numGeoms := toInt32 c
  if numGeoms < 1 then (false, index, 0)
  else
    match rdGeom index wkbGeometry with
    | (false, i', _) => (false, i', 0)
    | (true, i', res) =>
      envFold (fun ix => rdGeom ix wkbGeometry) maxmin (numGeoms.toNat - 1) i' res

/-- Embedding of `isEmptyWKBGeometryCollection` (gpkg.c line 582). -/
def isEmptyWKBGeometryCollection (isEmptyGeom : Int → Nat → Int × Int) (blob : Blob)
    (n_bytes index : Int) (byteOrder host : Nat) (dimension : Int) : Int × Int :=
  let (c, index) := getInt blob index byteOrder host
  let numGeoms := toInt32 c
  if numGeoms < 1 then (1, index)
  else isEmptyFold (fun ix => isEmptyGeom ix wkbGeometry) numGeoms.toNat index 1

/-- Embedding of `readWKBGeometryEnv` (gpkg.c line 609).  Here `fuel` bounds the recursion
depth of the mutual recursion of the C source (the C code relies on the call
stack); fuel 0 produces the failure outcome.  The byte-order marker is read
first and overrides the ambient order only when it is 0 or 1; the type code
then yields the dimensionality (both the high-bit flags and the /1000
encoding are honored), the M-as-3rd-ordinate substitution is applied when the
dimension is 3 and M was requested, an ordinate beyond the dimension fails,
an SRID is skipped, a kind filter mismatch fails, and the per-kind reader
runs. -/
def readWKBGeometryEnv : Nat → Blob → Int → Int → Nat → Nat → Int → Int → Nat →
    Bool × Int × Nat
  | 0, _, _, index, _, _, _, _, _ => (false, index, 0)
  | fuel + 1, blob, n_bytes, index, byteOrder, host, ordinate, maxmin, geometryTypeExpected =>
    let newByteOrder := bAt blob index
    let index := index + 1
    let byteOrder := if newByteOrder = 1 ∨ newByteOrder = 0 then newByteOrder else byteOrder
    let (typePat, index) := getInt blob index byteOrder host
    let hasZ := typePat &&& 0x80000000 ≠ 0 ∨ (typePat &&& 0xffff) / 1000 = 1 ∨
      (typePat &&& 0xffff) / 1000 = 3
    let hasM := typePat &&& 0x40000000 ≠ 0 ∨ (typePat &&& 0xffff) / 1000 = 2 ∨
      (typePat &&& 0xffff) / 1000 = 3
    let dimension : Int := 2 + (if hasZ then 1 else 0) + (if hasM then 1 else 0)
    let ordAdj : Option Int :=
      if dimension = 3 ∧ ordinate = 3 then some 2
      else if dimension < ordinate then none
      else some ordinate
    match ordAdj with
    | none => (false, index, 0)
    | some ordinate =>
      let hasSRID := typePat &&& 0x20000000 ≠ 0
      let index := if hasSRID then index + 4 else index
      let geometryType := (typePat &&& 0xffff) % 1000
      if geometryTypeExpected ≠ wkbGeometry ∧ geometryTypeExpected ≠ geometryType then
        (false, index, 0)
      else
        let rdGeom := fun ix exp =>
          readWKBGeometryEnv fuel blob n_bytes ix byteOrder host ordinate maxmin exp
        match geometryType with
        | 1 => readWKBPointOrd blob n_bytes index byteOrder host dimension ordinate
        | 2 => readWKBLineStringEnv blob n_bytes index byteOrder host dimension ordinate maxmin
        | 3 => readWKBPolygonEnv blob n_bytes index byteOrder host dimension ordinate maxmin
        | 4 => readWKBMultiPointEnv rdGeom blob n_bytes index byteOrder host dimension ordinate maxmin
        | 5 => readWKBMultiLineStringEnv rdGeom blob n_bytes index byteOrder host dimension ordinate maxmin
        | 6 => readWKBMultiPolygonEnv rdGeom blob n_bytes index byteOrder host dimension ordinate maxmin
        | 7 => readWKBGeometryCollectionEnv rdGeom blob n_bytes index byteOrder host dimension ordinate maxmin
        | _ => (false, index, 0)

/-- Embedding of `isEmptyWKBGeometry` (gpkg.c line 903), with the same fuel convention as
`readWKBGeometryEnv`; fuel 0 produces the error outcome. -/
def isEmptyWKBGeometry : Nat → Blob → Int → Int → Nat → Nat → Nat → Int × Int
  | 0, _, _, index, _, _, _ => (-1, index)
  | fuel + 1, blob, n_bytes, index, byteOrder, host, geometryTypeExpected =>
    let newByteOrder := bAt blob index
    let index := index + 1
    let byteOrder := if newByteOrder = 1 ∨ newByteOrder = 0 then newByteOrder else byteOrder
    let (typePat, index) := getInt blob index byteOrder host
    let hasZ := typePat &&& 0x80000000 ≠ 0 ∨ (typePat &&& 0xffff) / 1000 = 1 ∨
      (typePat &&& 0xffff) / 1000 = 3
    let hasM := typePat &&& 0x40000000 ≠ 0 ∨ (typePat &&& 0xffff) / 1000 = 2 ∨
      (typePat &&& 0xffff) / 1000 = 3
    let dimension : Int := 2 + (if hasZ then 1 else 0) + (if hasM then 1 else 0)
    let hasSRID := typePat &&& 0x20000000 ≠ 0
    let index := if hasSRID then index + 4 else index
    let geometryType := (typePat &&& 0xffff) % 1000
    if geometryTypeExpected ≠ wkbGeometry ∧ geometryTypeExpected ≠ geometryType then
      (-1, index)
    else
      let isEmptyGeom := fun ix exp =>
        isEmptyWKBGeometry fuel blob n_bytes ix byteOrder host exp
      match geometryType with
      | 1 => isEmptyWKBPoint blob n_bytes index byteOrder host dimension
      | 2 => isEmptyWKBLineString blob n_bytes index byteOrder host dimension
      | 3 => isEmptyWKBPolygon blob n_bytes index byteOrder host dimension
      | 4 => isEmptyWKBMultiPoint isEmptyGeom blob n_bytes index byteOrder host dimension
      | 5 => isEmptyWKBMultiLineString isEmptyGeom blob n_bytes index byteOrder host dimension
      | 6 => isEmptyWKBMultiPolygon isEmptyGeom blob n_bytes index byteOrder host dimension
      | 7 => isEmptyWKBGeometryCollection isEmptyGeom blob n_bytes index byteOrder host dimension
      | _ => (-1, index)

/-- Byte count of the precomputed envelope for each envelope-kind field
value (the switch bodies of gpkg.c lines 728-735 and 808-815). -/
def envSize (envelopeType : Nat) : Int :=
  match envelopeType with
  | 0 => 0
  | 1 => 32
  | 2 => 48
  | 3 => 48
  | _ => 64

/-- Embedding of `readGPKGHeaderEnv` (gpkg.c line 700), the header-trusting envelope
read.  Returns (code, new index, value pattern) with code 1 = envelope value
produced, -1 = correct header but no envelope value, 0 = header error.  The
arithmetic of the non-empty MAX branch is transcribed literally from the
source, including `*index += dimension + ordinate * 8`. -/
def readGPKGHeaderEnv (blob : Blob) (n_bytes index : Int) (ordinate maxmin : Int)
    (host : Nat) : Int × Int × Nat :=
  if bAt blob index ≠ 0x47 then (0, index + 1, 0)
  else if bAt blob (index + 1) ≠ 0x50 then (0, index + 2, 0)
  else if bAt blob (index + 2) ≠ 0x00 then (0, index + 3, 0)
  else
    let flags := bAt blob (index + 3)
    let isEmpty := (flags &&& 0x10) >>> 4
    let index := index + 4 + 4
    let envelopeType := (flags &&& 0x0E) >>> 1
    if isEmpty ≠ 0 then
      if envelopeType ≤ 4 then (1, index + envSize envelopeType, 0)
      else (0, index, 0)
    else
      let byteOrder := flags &&& 0x01
      if envelopeType = 0 then (-1, index, 0)
      else if envelopeType > 4 then (0, index, 0)
      else
        let dimension : Int := if envelopeType = 1 then 2 else if envelopeType = 4 then 4 else 3
        if ordinate = 2 ∧ (envelopeType = 1 ∨ envelopeType = 3) then (0, index, 0)
        else if ordinate = 3 ∧ (envelopeType = 1 ∨ envelopeType = 2) then (0, index, 0)
        else
          let ordinate := if ordinate = 3 ∧ envelopeType = 3 then 2 else ordinate
          if maxmin = 0 then
            let index := index + ordinate * 8
            let (res, index) := getDouble blob index byteOrder host
            if isNanPat res then (-1, index + (dimension + dimension - ordinate - 1) * 8, res)
            else (1, index, res)
          else
            let index := index + dimension + ordinate * 8
            let (res, index) := getDouble blob index byteOrder host
            if isNanPat res then (-1, index + (dimension - ordinate - 1) * 8, res)
            else (1, index, res)

/-- Embedding of `skipGPKGHeader` (gpkg.c line 786). -/
def skipGPKGHeader (blob : Blob) (n_bytes index : Int) : Bool × Int :=
  if bAt blob index ≠ 0x47 then (false, index + 1)
  else if bAt blob (index + 1) ≠ 0x50 then (false, index + 2)
  else if bAt blob (index + 2) ≠ 0x00 then (false, index + 3)
  else
    let flags := bAt blob (index + 3)
    let index := index + 4 + 4
    let envelopeType := (flags &&& 0x0E) >>> 1
    if envelopeType ≤ 4 then (true, index + envSize envelopeType)
    else (false, index)

/-- Embedding of `readEmptyGPKGHeader` (gpkg.c line 858).  Returns (ok, new index,
isEmpty value). -/
def readEmptyGPKGHeader (blob : Blob) (n_bytes index : Int) : Bool × Int × Int :=
  if bAt blob index ≠ 0x47 then (false, index + 1, -1)
  else if bAt blob (index + 1) ≠ 0x50 then (false, index + 2, -1)
  else if bAt blob (index + 2) ≠ 0x00 then (false, index + 3, -1)
  else
    let flags := bAt blob (index + 3)
    let isEmpty : Int := ((flags &&& 0x10) >>> 4 : Nat)
    let index := index + 4 + 4
    let envelopeType := (flags &&& 0x0E) >>> 1
    if envelopeType ≤ 4 then (true, index + envSize envelopeType, isEmpty)
    else (false, index, -1)

/-- Embedding of `readGPKGGeometryEnv` (gpkg.c line 830).  The compile-time switch
`GPKG_ALLWAYS_USE_HEADER` is the `useHeader` flag: when set, the header is
consulted first and the WKB body is read only when the header gives no
answer; in the default mode the header is skipped unread and the body is
always consulted. -/
def readGPKGGeometryEnv (useHeader : Bool) (fuel : Nat) (blob : Blob)
    (n_bytes index : Int) (byteOrder host : Nat) (ordinate maxmin : Int)
    (geometryTypeExpected : Nat) : Bool × Int × Nat :=
  if useHeader then
    let (headerOk, i1, res) := readGPKGHeaderEnv blob n_bytes index ordinate maxmin host
    if headerOk = 1 then (true, i1, res)
    else readWKBGeometryEnv fuel blob n_bytes i1 byteOrder host ordinate maxmin
      geometryTypeExpected
  else
    match skipGPKGHeader blob n_bytes index with
    | (false, i1) => (false, i1, 0)
    | (true, i1) => readWKBGeometryEnv fuel blob n_bytes i1 byteOrder host ordinate maxmin
        geometryTypeExpected

/-- Embedding of `isEmptyGPKGGeometry` (gpkg.c line 957).  In header-trusting mode the
header empty flag is the whole answer.  In the default mode the code still
returns Empty directly when the header flag is set, and only defers to the
WKB body when the flag is clear. -/
def isEmptyGPKGGeometry (useHeader : Bool) (fuel : Nat) (blob : Blob)
    (n_bytes index : Int) (byteOrder host : Nat) (geometryTypeExpected : Nat) : Int × Int :=
  let (ok, i1, isEmpty) := readEmptyGPKGHeader blob n_bytes index
  if !ok then (-1, i1)
  else if useHeader then (isEmpty, i1)
  else if isEmpty = 1 then (1, i1)
  else isEmptyWKBGeometry fuel blob n_bytes i1 byteOrder host geometryTypeExpected

/-! Concrete little-endian byte strings of a few IEEE-754 doubles, used by
the concrete test blobs below. -/

/-- Bytes of 1.0, little-endian IEEE-754 (pattern 0x3FF0000000000000). -/
def bytesOne : List Nat := [0, 0, 0, 0, 0, 0, 0xF0, 0x3F]

/-- Bytes of 2.0, little-endian IEEE-754. -/
def bytesTwo : List Nat := [0, 0, 0, 0, 0, 0, 0, 0x40]

/-- Bytes of 3.0, little-endian IEEE-754. -/
def bytesThree : List Nat := [0, 0, 0, 0, 0, 0, 0x08, 0x40]

/-- Bytes of 4.0, little-endian IEEE-754. -/
def bytesFour : List Nat := [0, 0, 0, 0, 0, 0, 0x10, 0x40]

/-- Bytes of 5.0, little-endian IEEE-754. -/
def bytesFive : List Nat := [0, 0, 0, 0, 0, 0, 0x14, 0x40]

/-- A quiet NaN as little-endian IEEE-754 bytes. -/
def bytesNaN : List Nat := [0, 0, 0, 0, 0, 0, 0xF8, 0x7F]

/-- GPKG blob: header with an XY envelope holding min = (1.0, 2.0),
max = (3.0, 4.0), little-endian, non-empty flag. -/
def blobHdrEnv : Blob :=
  [0x47, 0x50, 0x00, 0x03, 0, 0, 0, 0] ++ bytesOne ++ bytesTwo ++ bytesThree ++ bytesFour

/-- C1: in header-trusting mode, for a blob whose header declares a
non-empty XY envelope, requesting the minimum of X does return the float at
float position `ordinate` (here 1.0, the first envelope float), but
requesting the maximum of X does not return the float at float position
`dimension + ordinate` (stored 3.0): instead `readGPKGHeaderEnv` advances
the cursor by `dimension + ordinate * 8` bytes (a precedence slip; the
NaN-recovery arithmetic in the same branch assumes the intended offset
`(dimension + ordinate) * 8`) and returns a denormal assembled from the
middle of the min-X and min-Y floats.  This refutes the maximum half of the
claim while confirming the minimum half. -/
theorem c1_header_max_reads_wrong_position :
    readGPKGHeaderEnv blobHdrEnv 40 0 0 0 1 = (1, 16, getDoublePat blobHdrEnv (8 + 0 * 8) 1 1) ∧
    getDoublePat blobHdrEnv (8 + (2 + 0) * 8) 1 1 = 0x4008000000000000 ∧
    readGPKGHeaderEnv blobHdrEnv 40 0 0 1 1 = (1, 18, 0x3FF000000000) ∧
    (0x3FF000000000 : Nat) ≠ 0x4008000000000000 := by
  decide

/-- GPKG blob whose header empty flag is set (flags 0x11) but whose WKB body
is a non-empty 2-D point (1.0, 2.0). -/
def blobStaleEmpty : Blob :=
  [0x47, 0x50, 0x00, 0x11, 0, 0, 0, 0] ++ ([1, 1, 0, 0, 0] ++ bytesOne ++ bytesTwo)

/-- C2 counterexample: in the default header-distrusting mode, on a blob
whose header empty flag is stale (set although the body is a non-empty
point), `isEmptyGPKGGeometry` answers Empty (1) straight from the header,
while the WKB body that follows the header tests NotEmpty (0).  So the
emptiness query does not compute its answer exclusively from the body. -/
theorem c2_stale_empty_flag_counterexample :
    isEmptyGPKGGeometry false 1 blobStaleEmpty 29 0 1 1 0 = (1, 8) ∧
    isEmptyWKBGeometry 1 blobStaleEmpty 29 8 1 1 0 = (0, 29) := by
  decide

/-- GPKG blob whose XY header envelope is computed correctly from its body:
the body is the little-endian 2-D point (1.0, 2.0) and the envelope stores
min = (1.0, 2.0), max = (1.0, 2.0). -/
def blobCorrectEnv : Blob :=
  [0x47, 0x50, 0x00, 0x03, 0, 0, 0, 0] ++ bytesOne ++ bytesTwo ++ bytesOne ++ bytesTwo ++
    ([1, 1, 0, 0, 0] ++ bytesOne ++ bytesTwo)

/-- C3: a blob whose header envelope is correct for its body (all four
stored envelope floats equal the corresponding body coordinate), yet the
header-trusting maximum-of-X read and the header-distrusting one disagree:
trusting returns the misaligned denormal pattern of
`c1_header_max_reads_wrong_position`, distrusting returns the body value
1.0.  The cross-mode equivalence therefore fails on the code (for the
maximum selector; the root cause is the C1 offset slip). -/
theorem c3_modes_disagree_on_correct_envelope :
    getDoublePat blobCorrectEnv 8 1 1 = getDoublePat blobCorrectEnv 45 1 1 ∧
    getDoublePat blobCorrectEnv 24 1 1 = getDoublePat blobCorrectEnv 45 1 1 ∧
    getDoublePat blobCorrectEnv 16 1 1 = getDoublePat blobCorrectEnv 53 1 1 ∧
    getDoublePat blobCorrectEnv 32 1 1 = getDoublePat blobCorrectEnv 53 1 1 ∧
    readGPKGGeometryEnv true 1 blobCorrectEnv 61 0 1 1 0 1 0 = (true, 18, 0x3FF000000000) ∧
    readGPKGGeometryEnv false 1 blobCorrectEnv 61 0 1 1 0 1 0 =
      (true, 61, 0x3FF0000000000000) ∧
    (0x3FF000000000 : Nat) ≠ 0x3FF0000000000000 := by
  decide

/-- A 2-D little-endian WKB point (1.0, 2.0) followed by 8 trailing bytes
(the byte string of 3.0). -/
def blob2dPoint : Blob := [1, 1, 0, 0, 0] ++ bytesOne ++ bytesTwo ++ bytesThree

/-- C4: requesting ordinate Z (2) on a geometry of decoded dimension 2 does
not yield the absent outcome: the dimension check `dimension < ordinate` of
`readWKBGeometryEnv` lets Z through on 2-D geometries (an off-by-one; the
spec requires the absent outcome), and the reader returns success with the
8 bytes situated immediately after the 2-D coordinate block — bytes outside
the block its bounds check covered. -/
theorem c4_z_on_2d_point_not_absent :
    readWKBGeometryEnv 1 blob2dPoint 29 0 1 1 2 0 0 = (true, 21, 0x4008000000000000) ∧
    getDoublePat blob2dPoint 21 1 1 = 0x4008000000000000 := by
  decide

/-- A 3-D little-endian WKB point with type code 1001 (Z present, M absent)
and coordinates (1.0, 2.0, 5.0), so the stored 3rd ordinate is the Z
value. -/
def blobZOnlyPoint : Blob := [1, 0xE9, 0x03, 0, 0] ++ bytesOne ++ bytesTwo ++ bytesFive

/-- C5: requesting ordinate M on a dimension-3 geometry whose type code
signals Z-presence only (code 1001) does not return Absent: the
M-as-3rd-ordinate substitution of `readWKBGeometryEnv` is applied whenever
the dimension is 3, so the stored Z value 5.0 is returned as M, although
the comment of the code itself restricts the substitution to the no-Z case. -/
theorem c5_m_on_z_only_returns_z :
    readWKBGeometryEnv 1 blobZOnlyPoint 29 0 1 1 3 0 0 = (true, 29, 0x4014000000000000) ∧
    getDoublePat blobZOnlyPoint 21 1 1 = 0x4014000000000000 := by
  decide

/-- C2 (amended): in the default header-distrusting mode, for every blob
with a well-formed container header (magic bytes, version 0, known
envelope kind), the envelope query always skips the header unread and
computes its answer from the WKB body; the emptiness query defers to the
body exactly when the header empty flag is clear — when the flag is set,
Empty is returned directly from the header without reading the body. -/
theorem c2_default_mode_header_handling (blob : Blob) (n_bytes : Int) (fuel : Nat)
    (byteOrder host : Nat) (ordinate maxmin : Int) (expected : Nat)
    (h1 : bAt blob 0 = 0x47) (h2 : bAt blob 1 = 0x50) (h3 : bAt blob 2 = 0)
    (henv : (bAt blob 3 &&& 0x0E) >>> 1 ≤ 4) :
    readGPKGGeometryEnv false fuel blob n_bytes 0 byteOrder host ordinate maxmin expected =
      readWKBGeometryEnv fuel blob n_bytes (8 + envSize ((bAt blob 3 &&& 0x0E) >>> 1))
        byteOrder host ordinate maxmin expected ∧
    (((bAt blob 3 &&& 0x10) >>> 4 : Nat) ≠ 1 →
      isEmptyGPKGGeometry false fuel blob n_bytes 0 byteOrder host expected =
        isEmptyWKBGeometry fuel blob n_bytes (8 + envSize ((bAt blob 3 &&& 0x0E) >>> 1))
          byteOrder host expected) ∧
    (((bAt blob 3 &&& 0x10) >>> 4 : Nat) = 1 →
      isEmptyGPKGGeometry false fuel blob n_bytes 0 byteOrder host expected =
        ((1 : Int), (8 : Int) + envSize ((bAt blob 3 &&& 0x0E) >>> 1))) := by
  refine ⟨?_, ?_, ?_⟩
  · simp [readGPKGGeometryEnv, skipGPKGHeader, h1, h2, h3, henv]
  · intro hflag
    simp [isEmptyGPKGGeometry, readEmptyGPKGHeader, h1, h2, h3, henv, hflag]
  · intro hflag
    simp [isEmptyGPKGGeometry, readEmptyGPKGHeader, h1, h2, h3, henv, hflag]

/-- The blob of `blobStaleEmpty` with the empty flag clear (flags 0x01). -/
def blobClearFlag : Blob :=
  [0x47, 0x50, 0x00, 0x01, 0, 0, 0, 0] ++ ([1, 1, 0, 0, 0] ++ bytesOne ++ bytesTwo)

/-- Witness for `c2_default_mode_header_handling` at concrete inputs: the
clear-flag blob exercises the first two conjuncts, the stale-flag blob the
third. -/
theorem c2_default_mode_header_handling_witness :
    readGPKGGeometryEnv false 1 blobClearFlag 29 0 1 1 0 0 0 =
      readWKBGeometryEnv 1 blobClearFlag 29 8 1 1 0 0 0 ∧
    isEmptyGPKGGeometry false 1 blobClearFlag 29 0 1 1 0 =
      isEmptyWKBGeometry 1 blobClearFlag 29 8 1 1 0 ∧
    isEmptyGPKGGeometry false 1 blobStaleEmpty 29 0 1 1 0 = (1, 8) := by
  have hclear := c2_default_mode_header_handling blobClearFlag 29 1 1 1 0 0 0
    (by decide) (by decide) (by decide) (by decide)
  have hset := c2_default_mode_header_handling blobStaleEmpty 29 1 1 1 0 0 0
    (by decide) (by decide) (by decide) (by decide)
  exact ⟨hclear.1, hclear.2.1 (by decide), hset.2.2 (by decide)⟩

/-- Two blobs that agree on every byte position below `n_bytes` give the
same `getDoublePat` result for an 8-byte read lying inside that bound. -/
theorem getDoublePat_congr (blob blob' : Blob) (p n_bytes : Int) (byteOrder host : Nat)
    (h0 : 0 ≤ p) (h8 : p + 8 ≤ n_bytes)
    (hagree : ∀ q : Int, 0 ≤ q → q < n_bytes → bAt blob' q = bAt blob q) :
    getDoublePat blob' p byteOrder host = getDoublePat blob p byteOrder host := by
  have e : ∀ k : Int, 0 ≤ k → k ≤ 7 → bAt blob' (p + k) = bAt blob (p + k) := by
    intro k hk0 hk7
    exact hagree _ (by omega) (by omega)
  have e0 : bAt blob' p = bAt blob p := hagree _ h0 (by omega)
  unfold getDoublePat
  rw [e0, e 1 (by omega) (by omega), e 2 (by omega) (by omega), e 3 (by omega) (by omega),
    e 4 (by omega) (by omega), e 5 (by omega) (by omega), e 6 (by omega) (by omega),
    e 7 (by omega) (by omega)]

/-- C10: for a start index ≥ 0 and a requested ordinate with
0 ≤ ordinate < dimension, `readWKBPointOrd` either fails with the cursor
unchanged (exactly when the dimension·8-byte coordinate block does not fit
below `n_bytes`) or succeeds having read only bytes inside the buffer — its
result is unchanged under any modification of the bytes at or beyond
`n_bytes` — with the cursor advanced by exactly dimension·8 bytes. -/
theorem c10_readWKBPointOrd_safety (blob : Blob) (n_bytes index : Int)
    (byteOrder host : Nat) (dimension ordinate : Int)
    (hi : 0 ≤ index) (ho : 0 ≤ ordinate) (hod : ordinate < dimension) :
    (index + dimension * 8 > n_bytes →
      readWKBPointOrd blob n_bytes index byteOrder host dimension ordinate =
        (false, index, 0)) ∧
    (index + dimension * 8 ≤ n_bytes →
      (readWKBPointOrd blob n_bytes index byteOrder host dimension ordinate).1 = true ∧
      (readWKBPointOrd blob n_bytes index byteOrder host dimension ordinate).2.1 =
        index + dimension * 8 ∧
      ∀ blob' : Blob, (∀ q : Int, 0 ≤ q → q < n_bytes → bAt blob' q = bAt blob q) →
        readWKBPointOrd blob' n_bytes index byteOrder host dimension ordinate =
          readWKBPointOrd blob n_bytes index byteOrder host dimension ordinate) := by
  constructor
  · intro hgt
    unfold readWKBPointOrd
    rw [if_pos hgt]
  · intro hle
    have hnot : ¬(index + dimension * 8 > n_bytes) := by omega
    refine ⟨?_, ?_, ?_⟩
    · unfold readWKBPointOrd
      rw [if_neg hnot]
    · unfold readWKBPointOrd
      rw [if_neg hnot]
      show index + ordinate * 8 + 8 + (dimension - ordinate - 1) * 8 = index + dimension * 8
      ring_nf
    · intro blob' hagree
      unfold readWKBPointOrd
      rw [if_neg hnot, if_neg hnot]
      have hv : getDoublePat blob' (index + ordinate * 8) byteOrder host =
          getDoublePat blob (index + ordinate * 8) byteOrder host :=
        getDoublePat_congr blob blob' (index + ordinate * 8) n_bytes byteOrder host
          (by omega) (by omega) hagree
      simp only [getDouble, hv]

/-- Witness for `c10_readWKBPointOrd_safety`: a concrete 16-byte 2-D
coordinate block; reading ordinate 1 lands the cursor at 16, is insensitive
to bytes appended past `n_bytes` = 16, and fails without moving the cursor
when the buffer is declared 10 bytes long. -/
theorem c10_readWKBPointOrd_safety_witness :
    (readWKBPointOrd (bytesOne ++ bytesTwo) 16 0 1 1 2 1).2.1 = 16 ∧
    readWKBPointOrd (bytesOne ++ bytesTwo ++ bytesThree) 16 0 1 1 2 1 =
      readWKBPointOrd (bytesOne ++ bytesTwo) 16 0 1 1 2 1 ∧
    readWKBPointOrd (bytesOne ++ bytesTwo) 10 0 1 1 2 1 = (false, 0, 0) := by
  have h := c10_readWKBPointOrd_safety (bytesOne ++ bytesTwo) 16 0 1 1 2 1
    (by decide) (by decide) (by decide)
  have h10 := c10_readWKBPointOrd_safety (bytesOne ++ bytesTwo) 10 0 1 1 2 1
    (by decide) (by decide) (by decide)
  refine ⟨(h.2 (by decide)).2.1, ?_, h10.1 (by decide)⟩
  refine (h.2 (by decide)).2.2 _ ?_
  intro q h0 h16
  interval_cases q <;> rfl

/-- A little-endian WKB 2-D point (1.0, 2.0). -/
def pointLE : Blob := [1, 1, 0, 0, 0] ++ bytesOne ++ bytesTwo

/-- The same point re-encoded big-endian: the byte-order marker flipped,
the type integer and both coordinate doubles byte-reversed. -/
def pointBE : Blob := [0, 0, 0, 0, 1] ++ bytesOne.reverse ++ bytesTwo.reverse

/-- C9: re-encoding with the opposite byte order is invisible to the
readers.  `getInt` returns the same pattern from the four reversed bytes
under the opposite declared order (for either host endianness), `getDouble`
likewise for eight bytes, and on the concrete point re-encoded big-endian
(markers flipped, every int and double byte-reversed) both the emptiness
test and the envelope value are unchanged. -/
theorem c9_byte_order_round_trip (b0 b1 b2 b3 b4 b5 b6 b7 : Nat) (host host' : Nat)
    (hh : host = 0 ∨ host = 1) (hh' : host' = 0 ∨ host' = 1) :
    getIntPat [b0, b1, b2, b3] 0 1 host = getIntPat [b3, b2, b1, b0] 0 0 host' ∧
    getDoublePat [b0, b1, b2, b3, b4, b5, b6, b7] 0 1 host =
      getDoublePat [b7, b6, b5, b4, b3, b2, b1, b0] 0 0 host' ∧
    isEmptyWKBGeometry 1 pointLE 21 0 1 host 0 = (0, 21) ∧
    isEmptyWKBGeometry 1 pointBE 21 0 1 host 0 = (0, 21) ∧
    readWKBGeometryEnv 1 pointLE 21 0 1 host 0 0 0 = (true, 21, 0x3FF0000000000000) ∧
    readWKBGeometryEnv 1 pointBE 21 0 1 host 0 0 0 = (true, 21, 0x3FF0000000000000) := by
  rcases hh with h | h <;> rcases hh' with h' | h' <;> subst h h' <;>
    exact ⟨rfl, rfl, by decide, by decide, by decide, by decide⟩

/-- Witness for `c9_byte_order_round_trip` at concrete bytes and hosts. -/
theorem c9_byte_order_round_trip_witness :
    getIntPat [17, 34, 51, 68] 0 1 1 = getIntPat [68, 51, 34, 17] 0 0 0 ∧
    getDoublePat [1, 2, 3, 4, 5, 6, 7, 8] 0 1 1 =
      getDoublePat [8, 7, 6, 5, 4, 3, 2, 1] 0 0 0 := by
  have h := c9_byte_order_round_trip 17 34 51 68 0 0 0 0 1 0 (Or.inr rfl) (Or.inl rfl)
  have h2 := c9_byte_order_round_trip 1 2 3 4 5 6 7 8 1 0 (Or.inr rfl) (Or.inl rfl)
  exact ⟨h.1, h2.2.1⟩

/-- States that `k` consecutive rings starting at cursor `i` skip successfully and end
at cursor `j`. -/
def SkipsTo (blob : Blob) (n_bytes : Int) (byteOrder host : Nat) (dimension : Int) :
    Nat → Int → Int → Prop
  | 0, i, j => i = j
  | k + 1, i, j => ∃ m, skipWKBLineString blob n_bytes i byteOrder host dimension = (true, m) ∧
      SkipsTo blob n_bytes byteOrder host dimension k m j

/-- A successful ring chain makes `skipRings` succeed with the end cursor
of the chain. -/
theorem skipRings_of_skipsTo (blob : Blob) (n_bytes : Int) (byteOrder host : Nat)
    (dimension : Int) (k : Nat) :
    ∀ i j, SkipsTo blob n_bytes byteOrder host dimension k i j →
      skipRings blob n_bytes byteOrder host dimension k i = (true, j) := by
  induction k with
  | zero =>
    intro i j h
    cases h
    rfl
  | succ k ih =>
    intro i j h
    obtain ⟨m, hskip, hrest⟩ := h
    unfold skipRings
    rw [hskip]
    exact ih m j hrest

/-- C6: `isEmptyWKBPolygon` answers Empty exactly for a one-ring polygon
whose ring has zero points (given a canonical, non-negative point count); a
ring count below 1 is the Malformed outcome; and a polygon of two or more
well-formed rings is NotEmpty with the cursor advanced past every ring. -/
theorem c6_isEmptyWKBPolygon_spec (blob : Blob) (n_bytes index : Int)
    (byteOrder host : Nat) (dimension : Int) :
    (toInt32 (getIntPat blob index byteOrder host) < 1 →
      isEmptyWKBPolygon blob n_bytes index byteOrder host dimension = (-1, index + 4)) ∧
    (toInt32 (getIntPat blob index byteOrder host) = 1 →
      toInt32 (getIntPat blob (index + 4) byteOrder host) = 0 →
      isEmptyWKBPolygon blob n_bytes index byteOrder host dimension = (1, index + 4 + 4)) ∧
    (0 ≤ toInt32 (getIntPat blob (index + 4) byteOrder host) →
      ((isEmptyWKBPolygon blob n_bytes index byteOrder host dimension).1 = 1 ↔
        toInt32 (getIntPat blob index byteOrder host) = 1 ∧
        toInt32 (getIntPat blob (index + 4) byteOrder host) = 0)) ∧
    (∀ j, 2 ≤ toInt32 (getIntPat blob index byteOrder host) →
      SkipsTo blob n_bytes byteOrder host dimension
        (toInt32 (getIntPat blob index byteOrder host)).toNat (index + 4) j →
      isEmptyWKBPolygon blob n_bytes index byteOrder host dimension = (0, j)) := by
  refine ⟨?_, ?_, ?_, ?_⟩
  · intro h
    simp [isEmptyWKBPolygon, getInt, h]
  · intro h1 h0
    simp [isEmptyWKBPolygon, isEmptyWKBLineString, getInt, h1, h0]
  · intro hpc
    rcases lt_trichotomy (toInt32 (getIntPat blob index byteOrder host)) 1 with hc | hc | hc
    · simp [isEmptyWKBPolygon, getInt, hc]
      omega
    · rcases eq_or_lt_of_le hpc with hpc0 | hpc1
      · simp [isEmptyWKBPolygon, isEmptyWKBLineString, getInt, hc, hpc0.symm]
      · have hplt : ¬(toInt32 (getIntPat blob (index + 4) byteOrder host) < 1) := by omega
        simp only [isEmptyWKBPolygon, isEmptyWKBLineString, getInt]
        rw [if_neg (by omega), if_pos hc, if_neg hplt]
        constructor
        · intro hres
          exfalso
          revert hres
          split <;> simp
        · intro hres
          omega
    · have hne : toInt32 (getIntPat blob index byteOrder host) ≠ 1 := by omega
      simp only [isEmptyWKBPolygon, getInt]
      rw [if_neg (by omega), if_neg hne]
      constructor
      · intro hres
        exfalso
        revert hres
        rcases skipRings blob n_bytes byteOrder host dimension
          (toInt32 (getIntPat blob index byteOrder host)).toNat (index + 4) with ⟨b, i2⟩
        cases b <;> simp
      · intro hres
        omega
  · intro j hc hchain
    have hrw := skipRings_of_skipsTo blob n_bytes byteOrder host dimension
      (toInt32 (getIntPat blob index byteOrder host)).toNat (index + 4) j hchain
    simp only [isEmptyWKBPolygon, getInt]
    rw [if_neg (by omega), if_neg (by omega), hrw]

/-- A polygon body with one ring of zero points (empty polygon). -/
def polyOneEmptyRing : Blob := [1, 0, 0, 0, 0, 0, 0, 0]

/-- A polygon body with two one-point rings. -/
def polyTwoRings : Blob :=
  [2, 0, 0, 0] ++ ([1, 0, 0, 0] ++ bytesOne ++ bytesTwo) ++ ([1, 0, 0, 0] ++ bytesThree ++ bytesFour)

/-- Witness for `c6_isEmptyWKBPolygon_spec` on concrete polygons: one empty
ring gives Empty at cursor 8; a zero ring count is Malformed; two one-point
rings give NotEmpty with the cursor past both rings (44). -/
theorem c6_isEmptyWKBPolygon_spec_witness :
    isEmptyWKBPolygon polyOneEmptyRing 8 0 1 1 2 = (1, 8) ∧
    isEmptyWKBPolygon ([0, 0, 0, 0] : Blob) 4 0 1 1 2 = (-1, 4) ∧
    isEmptyWKBPolygon polyTwoRings 44 0 1 1 2 = (0, 44) := by
  have h1 := (c6_isEmptyWKBPolygon_spec polyOneEmptyRing 8 0 1 1 2).2.1 (by decide) (by decide)
  have h2 := (c6_isEmptyWKBPolygon_spec ([0, 0, 0, 0] : Blob) 4 0 1 1 2).1 (by decide)
  have h3 := (c6_isEmptyWKBPolygon_spec polyTwoRings 44 0 1 1 2).2.2.2 44 (by decide)
    ⟨24, by decide, 44, by decide, rfl⟩
  exact ⟨h1, h2, h3⟩

/-- The strict double order is transitive on the value domain. -/
theorem xrLt_trans {a b c : XR} (h1 : xrLt a b = true) (h2 : xrLt b c = true) :
    xrLt a c = true := by
  cases a <;> cases b <;> cases c <;> simp_all [xrLt]
  omega

/-- The C `<` on doubles is transitive (NaN compares false with
everything, so transitivity never crosses a NaN). -/
theorem dblLt_trans {a b c : Nat} (h1 : dblLt a b = true) (h2 : dblLt b c = true) :
    dblLt a c = true := by
  simp only [dblLt, Bool.and_eq_true, Bool.not_eq_true'] at h1 h2 ⊢
  exact ⟨⟨h1.1.1, h2.1.2⟩, xrLt_trans h1.2 h2.2⟩

/-- One folding step keeps the running minimum at or below the running
maximum: from a state where the two runs hold the same pattern or strictly
ordered patterns, folding the same new value preserves that relation. -/
theorem foldMinMax_min_le_max (r s v : Nat) (h : r = s ∨ dblLt r s = true) :
    foldMinMax 0 r v = foldMinMax 1 s v ∨
      dblLt (foldMinMax 0 r v) (foldMinMax 1 s v) = true := by
  have e0 : foldMinMax 0 r v = if dblLt v r then v else r := by simp [foldMinMax]
  have e1 : foldMinMax 1 s v = if dblLt s v then v else s := by simp [foldMinMax]
  rw [e0, e1]
  by_cases h1 : dblLt v r = true
  · by_cases h2 : dblLt s v = true
    · simp [h1, h2]
    · rw [if_pos h1, if_neg h2]
      rcases h with rfl | h
      · exact Or.inr h1
      · exact Or.inr (dblLt_trans h1 h)
  · by_cases h2 : dblLt s v = true
    · rw [if_neg h1, if_pos h2]
      rcases h with rfl | h
      · exact Or.inr h2
      · exact Or.inr (dblLt_trans h h2)
    · rw [if_neg h1, if_neg h2]
      exact h

/-- Running the element fold with the MIN selector and with the MAX
selector over the same elements from related starting extremes: if the MIN
run succeeds, the MAX run succeeds at the same end cursor and its result is
the same pattern or strictly above the MIN result. -/
theorem envFold_min_max (rd : Int → Bool × Int × Nat) (k : Nat) :
    ∀ i r s, (r = s ∨ dblLt r s = true) →
      ∀ i1 rm, envFold rd 0 k i r = (true, i1, rm) →
        ∃ rM, envFold rd 1 k i s = (true, i1, rM) ∧ (rm = rM ∨ dblLt rm rM = true) := by
  induction k with
  | zero =>
    intro i r s h i1 rm hmin
    simp only [envFold] at hmin ⊢
    injection hmin with h1 h2
    injection h2 with h3 h4
    subst h3
    subst h4
    exact ⟨s, rfl, h⟩
  | succ k ih =>
    intro i r s h i1 rm hmin
    simp only [envFold] at hmin ⊢
    rcases hrd : rd i with ⟨ok, i2, v⟩
    rw [hrd] at hmin
    cases ok
    · exact absurd hmin (by simp)
    · exact ih i2 _ _ (foldMinMax_min_le_max r s v h) i1 rm hmin

/-- C8: a point count below 1 makes the LineString envelope read fail for
either selector, and whenever the MIN read decodes successfully the MAX
read of the same LineString succeeds at the same end cursor with a result
at or above it: the two results are the same bit pattern (in particular
when the fold is saturated by a NaN first ordinate) or strictly ordered by
the IEEE-754 `<`. -/
theorem c8_linestring_min_le_max (blob : Blob) (n_bytes index : Int)
    (byteOrder host : Nat) (dimension ordinate : Int) :
    (toInt32 (getIntPat blob index byteOrder host) < 1 →
      ∀ maxmin, readWKBLineStringEnv blob n_bytes index byteOrder host dimension ordinate maxmin
        = (false, index + 4, 0)) ∧
    (∀ i1 rmin, readWKBLineStringEnv blob n_bytes index byteOrder host dimension ordinate 0 =
        (true, i1, rmin) →
      ∃ rmax, readWKBLineStringEnv blob n_bytes index byteOrder host dimension ordinate 1 =
        (true, i1, rmax) ∧ (rmin = rmax ∨ dblLt rmin rmax = true)) := by
  constructor
  · intro h maxmin
    simp [readWKBLineStringEnv, getInt, h]
  · intro i1 rmin hmin
    simp only [readWKBLineStringEnv, getInt] at hmin ⊢
    by_cases hc : toInt32 (getIntPat blob index byteOrder host) < 1
    · rw [if_pos hc] at hmin
      exact absurd hmin (by simp)
    · rw [if_neg hc] at hmin ⊢
      by_cases hb : index + 4 + toInt32 (getIntPat blob index byteOrder host) * dimension * 8 >
          n_bytes
      · rw [if_pos hb] at hmin
        exact absurd hmin (by simp)
      · rw [if_neg hb] at hmin ⊢
        rcases hp : readWKBPointOrd blob n_bytes (index + 4) byteOrder host dimension ordinate
          with ⟨ok, i2, v⟩
        cases ok
        · rw [hp] at hmin
          exact absurd hmin (by simp)
        · rw [hp] at hmin
          exact envFold_min_max _ _ i2 v v (Or.inl rfl) i1 rmin hmin

/-- A 2-D LineString body of two points (1.0, 2.0) and (3.0, 4.0). -/
def lsTwoPoints : Blob := [2, 0, 0, 0] ++ bytesOne ++ bytesTwo ++ bytesThree ++ bytesFour

/-- Witness for `c8_linestring_min_le_max`: on the concrete two-point
LineString the MIN read returns 1.0 and the MAX read is forced to succeed
at the same cursor with a result at or above it; a zero point count
fails. -/
theorem c8_linestring_min_le_max_witness :
    (∃ rmax, readWKBLineStringEnv lsTwoPoints 36 0 1 1 2 0 1 = (true, 36, rmax) ∧
      (0x3FF0000000000000 = rmax ∨ dblLt 0x3FF0000000000000 rmax = true)) ∧
    readWKBLineStringEnv [0, 0, 0, 0] 4 0 1 1 2 0 0 = (false, 4, 0) := by
  exact ⟨(c8_linestring_min_le_max lsTwoPoints 36 0 1 1 2 0).2 36 0x3FF0000000000000
    (by decide), (c8_linestring_min_le_max [0, 0, 0, 0] 4 0 1 1 2 0).1 (by decide) 0⟩

/-- The recursive element reader the dispatcher hands to the multi and
collection emptiness handlers. -/
def elemEmpty (fuel : Nat) (blob : Blob) (n_bytes : Int) (byteOrder host : Nat) :
    Int → Nat → Int × Int :=
  fun ix exp => isEmptyWKBGeometry fuel blob n_bytes ix byteOrder host exp

/-- The recursive element reader the dispatcher hands to the multi and
collection envelope handlers. -/
def elemEnv (fuel : Nat) (blob : Blob) (n_bytes : Int) (byteOrder host : Nat)
    (ordinate maxmin : Int) : Int → Nat → Bool × Int × Nat :=
  fun ix exp => readWKBGeometryEnv fuel blob n_bytes ix byteOrder host ordinate maxmin exp

/-- The elements starting at cursor `i` produce the emptiness results `rs`
in order under the element reader `isE`, ending at cursor `j`. -/
def RunsTo (isE : Int → Int × Int) : List Int → Int → Int → Prop
  | [], i, j => i = j
  | r :: rs, i, j => ∃ m, isE i = (r, m) ∧ RunsTo isE rs m j

/-- The elements starting at cursor `i` are read successfully with the
envelope values `vs` in order under the element reader `rd`, ending at
cursor `j`. -/
def EnvRunsTo (rd : Int → Bool × Int × Nat) : List Nat → Int → Int → Prop
  | [], i, j => i = j
  | v :: vs, i, j => ∃ m, rd i = (true, m, v) ∧ EnvRunsTo rd vs m j

/-- Folding a full chain of parsed elements whose results are all
non-negative: no early abort happens, the cursor ends at the chain end, and
the aggregate is 0 exactly when some element gave 0. -/
theorem isEmptyFold_ok (isE : Int → Int × Int) (rs : List Int) :
    ∀ i j res, RunsTo isE rs i j → (∀ x ∈ rs, 0 ≤ x) →
      isEmptyFold isE rs.length i res = ((if 0 ∈ rs then 0 else res), j) := by
  induction rs with
  | nil =>
    intro i j res h _
    simp only [RunsTo] at h
    subst h
    simp [isEmptyFold]
  | cons r rs ih =>
    intro i j res h hnn
    obtain ⟨m, hr, hrest⟩ := h
    simp only [List.length_cons, isEmptyFold]
    rw [hr, if_neg (not_lt.mpr (hnn r (List.mem_cons_self r rs)))]
    rw [ih m j _ hrest (fun x hx => hnn x (List.mem_cons_of_mem _ hx))]
    by_cases h0 : r = 0
    · subst h0
      simp [List.mem_cons]
    · have h0' : (0 : Int) ≠ r := fun hh => h0 hh.symm
      simp [List.mem_cons, h0', h0]

/-- Folding a chain that hits a hard element failure: the failure result
and its cursor are returned at once, whatever remains of the loop. -/
theorem isEmptyFold_fail (isE : Int → Int × Int) (rs : List Int) :
    ∀ i j res r i2, RunsTo isE rs i j → (∀ x ∈ rs, 0 ≤ x) → isE j = (r, i2) → r < 0 →
      ∀ k, rs.length < k → isEmptyFold isE k i res = (r, i2) := by
  induction rs with
  | nil =>
    intro i j res r i2 h _ hj hr k hk
    simp only [RunsTo] at h
    subst h
    obtain ⟨k', rfl⟩ : ∃ k', k = k' + 1 := ⟨k - 1, by omega⟩
    simp only [isEmptyFold]
    rw [hj, if_pos hr]
  | cons x rs ih =>
    intro i j res r i2 h hnn hj hr k hk
    obtain ⟨m, hx, hrest⟩ := h
    obtain ⟨k', rfl⟩ : ∃ k', k = k' + 1 := ⟨k - 1, by omega⟩
    simp only [isEmptyFold]
    rw [hx, if_neg (not_lt.mpr (hnn x (List.mem_cons_self x rs)))]
    have hk' : rs.length < k' := by
      simp only [List.length_cons] at hk
      omega
    exact ih m j _ r i2 hrest (fun y hy => hnn y (List.mem_cons_of_mem _ hy)) hj hr k' hk'

/-- The envelope fold aborts with the cursor of a failing element and the
failure outcome, whatever remains of the loop and whatever the running
extreme is. -/
theorem envFold_fail (rd : Int → Bool × Int × Nat) (mm : Int) (vs : List Nat) :
    ∀ i p i2 w res, EnvRunsTo rd vs i p → rd p = (false, i2, w) →
      ∀ k, vs.length < k → envFold rd mm k i res = (false, i2, 0) := by
  induction vs with
  | nil =>
    intro i p i2 w res h hp k hk
    simp only [EnvRunsTo] at h
    subst h
    obtain ⟨k', rfl⟩ : ∃ k', k = k' + 1 := ⟨k - 1, by omega⟩
    simp only [envFold]
    rw [hp]
  | cons v vs ih =>
    intro i p i2 w res h hp k hk
    obtain ⟨m, hv, hrest⟩ := h
    obtain ⟨k', rfl⟩ : ∃ k', k = k' + 1 := ⟨k - 1, by omega⟩
    simp only [envFold]
    rw [hv]
    have hk' : vs.length < k' := by
      simp only [List.length_cons] at hk
      omega
    exact ih m p i2 w _ hrest hp k' hk'

/-- The C7 emptiness contract of one multi/collection handler `f` whose
elements have expected kind `exp`: a zero (or negative) element count is
Empty; a full chain of parsed elements yields Empty iff every element
tested Empty, with the cursor at the chain end (a NotEmpty element does not
stop the traversal); a hard element failure aborts at once with that
cursor of that failure. -/
def MultiEmptyContract
    (f : (Int → Nat → Int × Int) → Blob → Int → Int → Nat → Nat → Int → Int × Int)
    (exp : Nat) : Prop :=
  ∀ fuel blob n_bytes index byteOrder host dimension,
    (toInt32 (getIntPat blob index byteOrder host) < 1 →
      f (elemEmpty fuel blob n_bytes byteOrder host) blob n_bytes index byteOrder host
        dimension = (1, index + 4)) ∧
    (∀ rs j, 1 ≤ toInt32 (getIntPat blob index byteOrder host) →
      rs.length = (toInt32 (getIntPat blob index byteOrder host)).toNat →
      (∀ x ∈ rs, x = 0 ∨ x = 1) →
      RunsTo (fun ix => elemEmpty fuel blob n_bytes byteOrder host ix exp) rs (index + 4) j →
      f (elemEmpty fuel blob n_bytes byteOrder host) blob n_bytes index byteOrder host
        dimension = ((if ∀ x ∈ rs, x = 1 then 1 else 0), j)) ∧
    (∀ rs j r i2, rs.length < (toInt32 (getIntPat blob index byteOrder host)).toNat →
      (∀ x ∈ rs, 0 ≤ x) →
      RunsTo (fun ix => elemEmpty fuel blob n_bytes byteOrder host ix exp) rs (index + 4) j →
      elemEmpty fuel blob n_bytes byteOrder host j exp = (r, i2) → r < 0 →
      f (elemEmpty fuel blob n_bytes byteOrder host) blob n_bytes index byteOrder host
        dimension = (r, i2))

/-- The C7 envelope contract of one multi/collection handler `f`: a zero
(or negative) element count is the failure outcome, and a failing element
after any chain of successful ones aborts the whole read with the failure
outcome — never a partial result. -/
def MultiEnvContract
    (f : (Int → Nat → Bool × Int × Nat) → Blob → Int → Int → Nat → Nat → Int → Int → Int →
      Bool × Int × Nat)
    (exp : Nat) : Prop :=
  ∀ fuel blob n_bytes index byteOrder host dimension ordinate maxmin,
    (toInt32 (getIntPat blob index byteOrder host) < 1 →
      f (elemEnv fuel blob n_bytes byteOrder host ordinate maxmin) blob n_bytes index
        byteOrder host dimension ordinate maxmin = (false, index + 4, 0)) ∧
    (∀ vs p i2 w, vs.length < (toInt32 (getIntPat blob index byteOrder host)).toNat →
      EnvRunsTo (fun ix => elemEnv fuel blob n_bytes byteOrder host ordinate maxmin ix exp) vs
        (index + 4) p →
      elemEnv fuel blob n_bytes byteOrder host ordinate maxmin p exp = (false, i2, w) →
      f (elemEnv fuel blob n_bytes byteOrder host ordinate maxmin) blob n_bytes index
        byteOrder host dimension ordinate maxmin = (false, i2, 0))

/-- With elements of two-valued results, "no element gave 0" is "every
element gave 1". -/
theorem zero_mem_iff_not_all_one (rs : List Int) (hx : ∀ x ∈ rs, x = 0 ∨ x = 1) :
    ((if 0 ∈ rs then 0 else 1 : Int)) = (if ∀ x ∈ rs, x = 1 then 1 else 0) := by
  by_cases h : (0 : Int) ∈ rs
  · rw [if_pos h, if_neg]
    intro hall
    have := hall 0 h
    omega
  · rw [if_neg h, if_pos]
    intro x hxm
    rcases hx x hxm with rfl | rfl
    · exact absurd hxm h
    · rfl

/-- Any handler with the common multi/collection emptiness body satisfies
the C7 emptiness contract. -/
theorem genericMultiEmpty (exp : Nat)
    (f : (Int → Nat → Int × Int) → Blob → Int → Int → Nat → Nat → Int → Int × Int)
    (hf : ∀ isE blob n_bytes index byteOrder host dimension,
      f isE blob n_bytes index byteOrder host dimension =
        (if toInt32 (getIntPat blob index byteOrder host) < 1 then ((1 : Int), index + 4)
         else isEmptyFold (fun ix => isE ix exp)
           (toInt32 (getIntPat blob index byteOrder host)).toNat (index + 4) 1)) :
    MultiEmptyContract f exp := by
  intro fuel blob n_bytes index byteOrder host dimension
  refine ⟨?_, ?_, ?_⟩
  · intro h
    rw [hf, if_pos h]
  · intro rs j hc hlen hx hrun
    rw [hf, if_neg (by omega), ← hlen]
    rw [isEmptyFold_ok _ rs (index + 4) j 1 hrun
      (fun x hxm => by rcases hx x hxm with rfl | rfl <;> omega)]
    rw [zero_mem_iff_not_all_one rs hx]
  · intro rs j r i2 hlen hx hrun hj hr
    rw [hf, if_neg (by omega)]
    exact isEmptyFold_fail _ rs (index + 4) j 1 r i2 hrun hx hj hr _ hlen

/-- Any handler with the common multi/collection envelope body satisfies
the C7 envelope contract. -/
theorem genericMultiEnv (exp : Nat)
    (f : (Int → Nat → Bool × Int × Nat) → Blob → Int → Int → Nat → Nat → Int → Int → Int →
      Bool × Int × Nat)
    (hf : ∀ rd blob n_bytes index byteOrder host dimension ordinate maxmin,
      f rd blob n_bytes index byteOrder host dimension ordinate maxmin =
        (if toInt32 (getIntPat blob index byteOrder host) < 1 then (false, index + 4, 0)
         else
           match rd (index + 4) exp with
           | (false, i', _) => (false, i', 0)
           | (true, i', res) => envFold (fun ix => rd ix exp) maxmin
               ((toInt32 (getIntPat blob index byteOrder host)).toNat - 1) i' res)) :
    MultiEnvContract f exp := by
  intro fuel blob n_bytes index byteOrder host dimension ordinate maxmin
  refine ⟨?_, ?_⟩
  · intro h
    rw [hf, if_pos h]
  · intro vs p i2 w hlen hrun hfail
    rw [hf, if_neg (by omega)]
    cases vs with
    | nil =>
      simp only [EnvRunsTo] at hrun
      subst hrun
      rw [hfail]
    | cons v vs' =>
      obtain ⟨m, hv, hrest⟩ := hrun
      have hv' : elemEnv fuel blob n_bytes byteOrder host ordinate maxmin (index + 4) exp =
          (true, m, v) := hv
      rw [hv']
      have hlen' : vs'.length < (toInt32 (getIntPat blob index byteOrder host)).toNat - 1 := by
        simp only [List.length_cons] at hlen
        omega
      exact envFold_fail _ maxmin vs' m p i2 w v hrest hfail _ hlen'

/-- C7: the four multi/collection emptiness handlers each satisfy the
emptiness contract (Empty iff zero elements or every parsed element Empty;
hard element failures abort at once as Malformed; a NotEmpty element does
not stop the traversal, the cursor still lands at the chain end), and the
four envelope handlers each satisfy the envelope contract (a zero element
count or a malformed element gives the failure outcome, never a partial
result), with the recursive element reader `isEmptyWKBGeometry` /
`readWKBGeometryEnv` and the kind filter of each container kind. -/
theorem c7_multi_collection_contracts :
    MultiEmptyContract isEmptyWKBMultiPoint wkbPoint ∧
    MultiEmptyContract isEmptyWKBMultiLineString wkbLineString ∧
    MultiEmptyContract isEmptyWKBMultiPolygon wkbPolygon ∧
    MultiEmptyContract isEmptyWKBGeometryCollection wkbGeometry ∧
    MultiEnvContract readWKBMultiPointEnv wkbPoint ∧
    MultiEnvContract readWKBMultiLineStringEnv wkbLineString ∧
    MultiEnvContract readWKBMultiPolygonEnv wkbPolygon ∧
    MultiEnvContract readWKBGeometryCollectionEnv wkbGeometry :=
  ⟨genericMultiEmpty _ _ (fun _ _ _ _ _ _ _ => rfl),
   genericMultiEmpty _ _ (fun _ _ _ _ _ _ _ => rfl),
   genericMultiEmpty _ _ (fun _ _ _ _ _ _ _ => rfl),
   genericMultiEmpty _ _ (fun _ _ _ _ _ _ _ => rfl),
   genericMultiEnv _ _ (fun _ _ _ _ _ _ _ _ _ => rfl),
   genericMultiEnv _ _ (fun _ _ _ _ _ _ _ _ _ => rfl),
   genericMultiEnv _ _ (fun _ _ _ _ _ _ _ _ _ => rfl),
   genericMultiEnv _ _ (fun _ _ _ _ _ _ _ _ _ => rfl)⟩

/-- A MultiPoint body of two 2-D points: an all-NaN (empty) one and
(1.0, 2.0). -/
def mpTwoPoints : Blob :=
  [2, 0, 0, 0] ++ ([1, 1, 0, 0, 0] ++ bytesNaN ++ bytesNaN) ++
    ([1, 1, 0, 0, 0] ++ bytesOne ++ bytesTwo)

/-- A MultiPoint body of one element that is a LineString record — the
kind filter makes this element malformed. -/
def mpBadElem : Blob := [1, 0, 0, 0] ++ [1, 2, 0, 0, 0]

/-- Witness for `c7_multi_collection_contracts` at concrete inputs: a
two-point MultiPoint with one empty and one non-empty element is NotEmpty
with the cursor at its end; a MultiPoint whose single element has the wrong
kind is Malformed for the emptiness query and a failure for the envelope
query; a zero-element GeometryCollection is Empty, and its envelope read
fails. -/
theorem c7_multi_collection_contracts_witness :
    isEmptyWKBMultiPoint (elemEmpty 1 mpTwoPoints 46 1 1) mpTwoPoints 46 0 1 1 2 = (0, 46) ∧
    isEmptyWKBMultiPoint (elemEmpty 1 mpBadElem 9 1 1) mpBadElem 9 0 1 1 2 = (-1, 9) ∧
    isEmptyWKBGeometryCollection (elemEmpty 1 [0, 0, 0, 0] 4 1 1) [0, 0, 0, 0] 4 0 1 1 2 =
      (1, 4) ∧
    readWKBMultiPointEnv (elemEnv 1 mpBadElem 9 1 1 0 0) mpBadElem 9 0 1 1 2 0 0 =
      (false, 9, 0) ∧
    readWKBGeometryCollectionEnv (elemEnv 1 [0, 0, 0, 0] 4 1 1 0 0) [0, 0, 0, 0] 4 0 1 1 2
      0 0 = (false, 4, 0) := by
  have hmp := c7_multi_collection_contracts.1 1 mpTwoPoints 46 0 1 1 2
  have hbad := c7_multi_collection_contracts.1 1 mpBadElem 9 0 1 1 2
  have hcoll := c7_multi_collection_contracts.2.2.2.1 1 ([0, 0, 0, 0] : Blob) 4 0 1 1 2
  have henvbad := c7_multi_collection_contracts.2.2.2.2.1 1 mpBadElem 9 0 1 1 2 0 0
  have henvzero := c7_multi_collection_contracts.2.2.2.2.2.2.2 1 ([0, 0, 0, 0] : Blob) 4 0 1 1
    2 0 0
  refine ⟨?_, ?_, ?_, ?_, ?_⟩
  · exact hmp.2.1 [1, 0] 46 (by decide) (by decide) (by decide)
      ⟨25, by decide, 46, by decide, rfl⟩
  · exact hbad.2.2 [] 4 (-1) 9 (by decide) (by decide) rfl (by decide) (by decide)
  · exact hcoll.1 (by decide)
  · exact henvbad.2 [] 4 9 0 (by decide) rfl (by decide)
  · exact henvzero.1 (by decide)

end GPKG

